import Mathlib

/-
  Verification development for the vaxrank command-line front end
  (`vaxrank/cli.py`): a shallow embedding of `load_template_data` and
  `main`, together with spec-modelled versions of the core-logic and
  report helpers they call (`ranked_vaccine_peptides`,
  `dataframe_from_ranked_list`, `compute_template_data`), and theorems
  about the embedded definitions.
-/

set_option maxHeartbeats 2000000

namespace Vaxrank

/-- A Python value as it appears in the parsed `argparse` namespace:
the vaxrank options are strings, ints and floats.  Floats are modelled
as rationals. -/
inductive PyValue where
  | str (s : String)
  | int (n : Int)
  | float (q : Rat)
  deriving DecidableEq, Repr

/-- The parsed argument namespace (`args` in `cli.py`).  The named
fields are the options declared in `cli.py` plus the isovar option
`min_reads_supporting_variant_sequence` that `cli.py` reads and the
`bam` path it reads; `extraArgs` stands for the remaining options
contributed by the external isovar/mhctools argument parsers, which are
carried through `vars(args)` but never read by `cli.py` itself. -/
structure Args where
  bam : String
  input_pickle_file : String
  max_mutations_in_report : Int
  max_vaccine_peptides_per_mutation : Int
  min_epitope_score : Rat
  min_reads_supporting_variant_sequence : Int
  output_ascii_report : String
  output_csv : String
  output_final_review : String
  output_html_report : String
  output_patient_id : String
  output_pdf_report : String
  output_pickle_file : String
  output_reviewed_by : String
  padding_around_mutation : Int
  vaccine_peptide_length : Int
  extraArgs : List (String × PyValue)
  deriving DecidableEq, Repr

/-- `vars(args)`: the argument namespace as a name/value association
list.  The named fields are listed with their Python option names. -/
def varsOf (a : Args) : List (String × PyValue) :=
  [("bam", .str a.bam),
   ("input_pickle_file", .str a.input_pickle_file),
   ("max_mutations_in_report", .int a.max_mutations_in_report),
   ("max_vaccine_peptides_per_mutation", .int a.max_vaccine_peptides_per_mutation),
   ("min_epitope_score", .float a.min_epitope_score),
   ("min_reads_supporting_variant_sequence", .int a.min_reads_supporting_variant_sequence),
   ("output_ascii_report", .str a.output_ascii_report),
   ("output_csv", .str a.output_csv),
   ("output_final_review", .str a.output_final_review),
   ("output_html_report", .str a.output_html_report),
   ("output_patient_id", .str a.output_patient_id),
   ("output_pdf_report", .str a.output_pdf_report),
   ("output_pickle_file", .str a.output_pickle_file),
   ("output_reviewed_by", .str a.output_reviewed_by),
   ("padding_around_mutation", .int a.padding_around_mutation),
   ("vaccine_peptide_length", .int a.vaccine_peptide_length)]
  ++ a.extraArgs

/-- Lexicographic comparison of character lists by Unicode code point,
non-strict; models Python string comparison. -/
def strLeListB : List Char → List Char → Bool
  | [], _ => true
  | _ :: _, [] => false
  | c :: cs, d :: ds =>
    if c.toNat < d.toNat then true
    else if d.toNat < c.toNat then false
    else strLeListB cs ds

/-- Non-strict string comparison, models Python `s <= t`. -/
def strLeB (s t : String) : Bool :=
  strLeListB s.data t.data

/-- Comparison of `(name, value)` pairs by name; models Python
`sorted` over `vars(args).items()`, whose keys are pairwise distinct,
so the tuple comparison is decided by the name alone. -/
def keyLE (p q : String × PyValue) : Bool :=
  strLeB p.1 q.1

/-- Insert an element into a list so that, if the list was sorted by
`le`, the result still is. -/
def insertLe {α : Type} (le : α → α → Bool) (x : α) : List α → List α
  | [] => [x]
  | y :: l => if le x y then x :: y :: l else y :: insertLe le x l

/-- Insertion sort; a stable sort, modelling Python `sorted`. -/
def sortLe {α : Type} (le : α → α → Bool) : List α → List α
  | [] => []
  | x :: l => insertLe le x (sortLe le l)

/-- `pat` is a character-list prefix of `s`. -/
def startsWithList : List Char → List Char → Bool
  | [], _ => true
  | _ :: _, [] => false
  | p :: ps, c :: cs => p == c && startsWithList ps cs

/-- Models Python `s.startswith(pre)`. -/
def pyStartswith (s pre : String) : Bool :=
  startsWithList pre.data s.data

/-- Helper for `pySplitComma`: walk the characters, cutting at commas;
`acc` holds the current chunk reversed. -/
def pySplitCommaGo : List Char → List Char → List String
  | [], acc => [String.mk acc.reverse]
  | c :: cs, acc =>
    if c = ',' then String.mk acc.reverse :: pySplitCommaGo cs []
    else pySplitCommaGo cs (c :: acc)

/-- Models Python `s.split(',')`.  In particular the split of the
empty string is `[""]`, a one-element list, never `[]`. -/
def pySplitComma (s : String) : List String :=
  pySplitCommaGo s.data []

/-- Models the Python slice `l[:n]` for an arbitrary (possibly
negative) integer `n`: a nonnegative `n` keeps the first `n` elements,
a negative `n` keeps all but the last `|n|`. -/
def pySliceTo {α : Type} (l : List α) (n : Int) : List α :=
  l.take (if n < 0 then l.length - (-n).toNat else n.toNat)

/-- Modelled from the spec (section 3): a somatic variant, identified
by its genomic locus and reference/alternate alleles.  The variant
type itself lives in the external varcode package. -/
structure Variant where
  locus : Nat
  ref : String
  alt : String
  deriving DecidableEq, Repr

/-- Modelled from the spec (section 3, `ScoredWindow`): a candidate
vaccine-peptide window with its aggregate score, its contributing
epitopes (epitope sequence with normalized score) and the read support
of its parent coding sequence.  The concrete class lives in
`vaxrank.core_logic`, which is not among the available sources. -/
structure ScoredWindow where
  sequence : String
  score : Rat
  epitopes : List (String × Rat)
  readSupport : Nat
  deriving DecidableEq, Repr

/-- Modelled from the spec (section 3, `RankedVariant`): a variant
together with its selected scored windows. -/
structure RankedVariant where
  variant : Variant
  windows : List ScoredWindow
  deriving DecidableEq, Repr

/-- The best (largest) aggregate score among a variant's windows; `0`
for a variant with no windows (such variants are excluded from the
ranking before this value is ever compared). -/
def bestWindowScore (v : RankedVariant) : Rat :=
  match v.windows with
  | [] => 0
  | w :: ws => ws.foldr (fun x m => max x.score m) w.score

/-- Modelled from the spec (section 4.5): the variant ordering used by
the ranking — descending by best-window aggregate score, ties broken
ascending by variant locus for determinism. -/
def variantLE (v w : RankedVariant) : Bool :=
  if bestWindowScore w < bestWindowScore v then true
  else if bestWindowScore v < bestWindowScore w then false
  else v.variant.locus ≤ w.variant.locus

/-- Modelled from the spec: `ranked_vaccine_peptides` is defined in
`vaxrank.core_logic`, which is not among the available sources; only
its call site in `cli.py` is.  Per spec sections 4.1-4.5 the per-variant
stages (aggregation, window enumeration, epitope scoring, window
ranking) produce one `RankedVariant` per variant; the variant ranking
stage then drops variants with no surviving windows and sorts the rest
descending by best-window score, tie-broken by locus.  The per-variant
stages are taken as an input (`perVariant`); the final truncation to
`max_mutations_in_report` is performed by the caller in `cli.py`. -/
def ranked_vaccine_peptides (perVariant : List RankedVariant) : List RankedVariant :=
  sortLe variantLE (perVariant.filter (fun v => !v.windows.isEmpty))

/-- Modelled from the spec (section 4.6): one row of the flat tabular
export, carrying the variant, the window sequence, its score and its
top contributing epitopes.  `dataframe_from_ranked_list` lives in
`vaxrank.core_logic`, which is not among the available sources. -/
structure CsvRow where
  variant : Variant
  peptideSequence : String
  score : Rat
  topEpitopes : List (String × Rat)
  deriving DecidableEq, Repr

/-- Modelled from the spec (section 4.6): the flat tabular form of a
ranked list — one row per selected vaccine-peptide window, in ranking
order. -/
def dataframe_from_ranked_list (l : List RankedVariant) : List CsvRow :=
  l.foldr
    (fun v acc =>
      v.windows.map
        (fun w =>
          { variant := v.variant,
            peptideSequence := w.sequence,
            score := w.score,
            topEpitopes := w.epitopes }) ++ acc)
    []

/-- The report template data: the structured payload handed to the
renderers.  In Python it is a dict; the fields below are the entries
`cli.py` itself puts into it (`args`, `patient_id`, `final_review`,
`reviewers`) together with the payload produced by
`compute_template_data` (ranked list, alleles, variant collection, bam
path). -/
structure TemplateData where
  rankedList : List RankedVariant
  mhcAlleles : List String
  variantColl : List Variant
  bamPath : String
  args : List (String × PyValue)
  patient_id : String
  final_review : String
  reviewers : List String
  deriving DecidableEq, Repr

/-- Modelled from the spec (section 4.6): `compute_template_data`
lives in `vaxrank.report`, which is not among the available sources.
It packages the truncated ranked list and the run metadata with full
fidelity; the CLI-level entries are filled in afterwards by
`load_template_data`. -/
def compute_template_data
    (ranked_variants_with_vaccine_peptides : List RankedVariant)
    (mhc_alleles : List String)
    (variants : List Variant)
    (bam_path : String) : TemplateData :=
  { rankedList := ranked_variants_with_vaccine_peptides,
    mhcAlleles := mhc_alleles,
    variantColl := variants,
    bamPath := bam_path,
    args := [],
    patient_id := "",
    final_review := "",
    reviewers := [] }

/-- Modelled from the spec (section 9): the serialized form of pickled
template data — a tagged tree of strings, integers, rationals and
nil/cons list cells.  Any format satisfying round-trip equality is
acceptable; Python's pickle module is external. -/
inductive PVal where
  | strV (v : String)
  | intV (v : Int)
  | ratV (v : Rat)
  | nilV
  | consV (head tail : PVal)
  deriving DecidableEq, Repr

/-- Encode a list field by field as a chain of cons cells. -/
def encodeListP {α : Type} (f : α → PVal) : List α → PVal
  | [] => .nilV
  | x :: xs => .consV (f x) (encodeListP f xs)

/-- Decode a chain of cons cells elementwise; fails on any shape
mismatch. -/
def decodeListP {α : Type} (f : PVal → Option α) : PVal → Option (List α)
  | .nilV => some []
  | .consV h t =>
    match f h with
    | none => none
    | some a =>
      match decodeListP f t with
      | none => none
      | some as => some (a :: as)
  | _ => none

/-- Encode a tagged Python scalar. -/
def encodePyValue : PyValue → PVal
  | .str s => .consV (.intV 0) (.strV s)
  | .int n => .consV (.intV 1) (.intV n)
  | .float q => .consV (.intV 2) (.ratV q)

/-- Decode a tagged Python scalar. -/
def decodePyValue : PVal → Option PyValue
  | .consV (.intV 0) (.strV s) => some (.str s)
  | .consV (.intV 1) (.intV n) => some (.int n)
  | .consV (.intV 2) (.ratV q) => some (.float q)
  | _ => none

/-- Encode a `(name, value)` argument pair. -/
def encodeArgPair (p : String × PyValue) : PVal :=
  .consV (.strV p.1) (encodePyValue p.2)

/-- Decode a `(name, value)` argument pair. -/
def decodeArgPair : PVal → Option (String × PyValue)
  | .consV (.strV k) v =>
    match decodePyValue v with
    | none => none
    | some pv => some (k, pv)
  | _ => none

/-- Encode an epitope entry (sequence and score). -/
def encodeEpitope (e : String × Rat) : PVal :=
  .consV (.strV e.1) (.ratV e.2)

/-- Decode an epitope entry. -/
def decodeEpitope : PVal → Option (String × Rat)
  | .consV (.strV s) (.ratV q) => some (s, q)
  | _ => none

/-- Encode a scored window. -/
def encodeScoredWindow (w : ScoredWindow) : PVal :=
  .consV (.strV w.sequence)
    (.consV (.ratV w.score)
      (.consV (encodeListP encodeEpitope w.epitopes)
        (.consV (.intV w.readSupport) .nilV)))

/-- Decode a scored window. -/
def decodeScoredWindow : PVal → Option ScoredWindow
  | .consV (.strV s) (.consV (.ratV q) (.consV eps (.consV (.intV r) .nilV))) =>
    match decodeListP decodeEpitope eps with
    | none => none
    | some es =>
      if 0 ≤ r then
        some { sequence := s, score := q, epitopes := es, readSupport := r.toNat }
      else none
  | _ => none

/-- Encode a variant. -/
def encodeVariant (v : Variant) : PVal :=
  .consV (.intV v.locus) (.consV (.strV v.ref) (.consV (.strV v.alt) .nilV))

/-- Decode a variant. -/
def decodeVariant : PVal → Option Variant
  | .consV (.intV n) (.consV (.strV r) (.consV (.strV a) .nilV)) =>
    if 0 ≤ n then some { locus := n.toNat, ref := r, alt := a } else none
  | _ => none

/-- Encode a ranked variant. -/
def encodeRankedVariant (rv : RankedVariant) : PVal :=
  .consV (encodeVariant rv.variant) (encodeListP encodeScoredWindow rv.windows)

/-- Decode a ranked variant. -/
def decodeRankedVariant : PVal → Option RankedVariant
  | .consV v ws =>
    match decodeVariant v with
    | none => none
    | some vv =>
      match decodeListP decodeScoredWindow ws with
      | none => none
      | some wws => some { variant := vv, windows := wws }
  | _ => none

/-- Encode the whole template data dict. -/
def encodeTemplateData (td : TemplateData) : PVal :=
  .consV (encodeListP encodeRankedVariant td.rankedList)
    (.consV (encodeListP PVal.strV td.mhcAlleles)
      (.consV (encodeListP encodeVariant td.variantColl)
        (.consV (.strV td.bamPath)
          (.consV (encodeListP encodeArgPair td.args)
            (.consV (.strV td.patient_id)
              (.consV (.strV td.final_review)
                (.consV (encodeListP PVal.strV td.reviewers) .nilV)))))))

/-- Decode a string cell. -/
def decodeStr : PVal → Option String
  | .strV s => some s
  | _ => none

/-- Decode the whole template data dict. -/
def decodeTemplateData : PVal → Option TemplateData
  | .consV rl (.consV al (.consV vc (.consV (.strV bam)
      (.consV ar (.consV (.strV pid) (.consV (.strV fr) (.consV rev .nilV))))))) =>
    match decodeListP decodeRankedVariant rl with
    | none => none
    | some rls =>
      match decodeListP decodeStr al with
      | none => none
      | some als =>
        match decodeListP decodeVariant vc with
        | none => none
        | some vcs =>
          match decodeListP decodeArgPair ar with
          | none => none
          | some ars =>
            match decodeListP decodeStr rev with
            | none => none
            | some revs =>
              some { rankedList := rls, mhcAlleles := als, variantColl := vcs,
                     bamPath := bam, args := ars, patient_id := pid,
                     final_review := fr, reviewers := revs }
  | _ => none

/-- The configuration that `cli.py` passes to
`ranked_vaccine_peptides` at its call site (lines 183-190): the
vaccine-peptide options plus the isovar read threshold. -/
structure PipelineCfg where
  vaccine_peptide_length : Int
  padding_around_mutation : Int
  max_vaccine_peptides_per_variant : Int
  min_reads_supporting_cdna_sequence : Int
  min_epitope_score : Rat
  deriving DecidableEq, Repr

/-- The pipeline configuration extracted from the parsed arguments,
exactly as at the `ranked_vaccine_peptides` call site. -/
def pipelineCfgOf (a : Args) : PipelineCfg :=
  { vaccine_peptide_length := a.vaccine_peptide_length,
    padding_around_mutation := a.padding_around_mutation,
    max_vaccine_peptides_per_variant := a.max_vaccine_peptides_per_mutation,
    min_reads_supporting_cdna_sequence := a.min_reads_supporting_variant_sequence,
    min_epitope_score := a.min_epitope_score }

/-- The external collaborators of `cli.py`, fixed for a run: the
per-variant output of the spec's stages 4.1-4.4 (a function of the
pipeline configuration, standing for the reads generator and the MHC
predictor with fixed responses), the variant collection, the resolved
MHC alleles, and the file system as seen by the pickle loader. -/
structure Env where
  perVariant : PipelineCfg → List RankedVariant
  variantColl : List Variant
  mhcAlleles : List String
  store : String → Option PVal

/-- An observable output action of a run. -/
inductive Effect where
  | csvWrite (path : String) (rows : List CsvRow)
  | pickleWrite (path : String) (data : PVal)
  | asciiWrite (path : String) (td : TemplateData)
  | htmlWrite (path : String) (td : TemplateData)
  | pdfWrite (path : String) (td : TemplateData)
  deriving DecidableEq, Repr

/-- `interesting_args` (cli.py lines 163-166): iterate the sorted
argument items and keep those whose name does not start with
`output`. -/
def interestingArgs (a : Args) : List (String × PyValue) :=
  (sortLe keyLE (varsOf a)).filter (fun p => !(pyStartswith p.1 "output"))

/-- The full ranked list of `cli.py` line 183: the core pipeline run on
the configuration extracted from the arguments. -/
def rankedListFor (env : Env) (a : Args) : List RankedVariant :=
  ranked_vaccine_peptides (env.perVariant (pipelineCfgOf a))

/-- `ranked_list_for_report` (cli.py line 192): the ranked list
truncated by the Python slice `[:args.max_mutations_in_report]`. -/
def rankedForReport (env : Env) (a : Args) : List RankedVariant :=
  pySliceTo (rankedListFor env a) a.max_mutations_in_report

/-- The template data built in the non-pickle branch of
`load_template_data` (cli.py lines 199-210): `compute_template_data`
on the truncated list, updated with the CLI-level entries.  The
patient id defaults to `"UNKNOWN"` when `--output-patient-id` was
empty (lines 168-170, which mutate `args` after `interesting_args` was
already collected). -/
def templateDataFor (env : Env) (a : Args) : TemplateData :=
  { compute_template_data (rankedForReport env a) env.mhcAlleles env.variantColl a.bam with
    args := interestingArgs a,
    patient_id := if a.output_patient_id = "" then "UNKNOWN" else a.output_patient_id,
    final_review := a.output_final_review,
    reviewers := pySplitComma a.output_reviewed_by }

/-- The output actions of the non-pickle branch of
`load_template_data`: the CSV write (lines 196-197) when
`--output-csv` is non-empty, then the pickle write (lines 216-219)
when `--output-pickle-file` is non-empty. -/
def effectsFor (env : Env) (a : Args) : List Effect :=
  (if a.output_csv ≠ "" then
    [Effect.csvWrite a.output_csv (dataframe_from_ranked_list (rankedForReport env a))]
  else []) ++
  (if a.output_pickle_file ≠ "" then
    [Effect.pickleWrite a.output_pickle_file (encodeTemplateData (templateDataFor env a))]
  else [])

/-- Replace the value of the first `input_pickle_file` entry of the
stored args list (cli.py lines 158-160); `none` models the IndexError
raised by `[...][0]` when no such entry exists. -/
def replaceFirstInputPickle : List (String × PyValue) → String → Option (List (String × PyValue))
  | [], _ => none
  | (k, v) :: rest, p =>
    if k = "input_pickle_file" then some (("input_pickle_file", PyValue.str p) :: rest)
    else
      match replaceFirstInputPickle rest p with
      | none => none
      | some rest' => some ((k, v) :: rest')

/-- `load_template_data` (cli.py lines 150-221).  A non-empty
`--input-pickle-file` takes the early branch: read and unpickle the
file, replace the `input_pickle_file` entry of the stored args list
with the given path, return — no variant loading, ranking or output
happens.  Otherwise run the full pipeline: collect the interesting
args, default the patient id, rank, truncate, optionally write the
CSV, assemble the template data and optionally pickle it.  Errors of
the pickle branch (missing file, undecodable data, missing args entry)
are returned as `Except.error`, modelling the raised exceptions. -/
def load_template_data (env : Env) (a : Args) : Except String (TemplateData × List Effect) :=
  if a.input_pickle_file ≠ "" then
    match env.store a.input_pickle_file with
    | none => .error "IOError: could not open input pickle file"
    | some pv =>
      match decodeTemplateData pv with
      | none => .error "UnpicklingError: invalid pickle data"
      | some td =>
        match replaceFirstInputPickle td.args a.input_pickle_file with
        | none => .error "IndexError: list index out of range"
        | some newArgs => .ok ({ td with args := newArgs }, [])
  else
    .ok (templateDataFor env a, effectsFor env a)

/-- `main` (cli.py lines 224-267): after argument parsing (external),
raise a ValueError unless at least one of the four report outputs was
requested; only then call `load_template_data` and render the
requested reports from the returned template data. -/
def vaxrank_main (env : Env) (a : Args) : Except String (TemplateData × List Effect) :=
  if a.output_csv = "" ∧ a.output_ascii_report = "" ∧
      a.output_html_report = "" ∧ a.output_pdf_report = "" then
    .error "ValueError: must specify at least one of the output options"
  else
    match load_template_data env a with
    | .error e => .error e
    | .ok (td, effs) =>
      .ok (td, effs ++
        (if a.output_ascii_report ≠ "" then [Effect.asciiWrite a.output_ascii_report td] else []) ++
        (if a.output_html_report ≠ "" then [Effect.htmlWrite a.output_html_report td] else []) ++
        (if a.output_pdf_report ≠ "" then [Effect.pdfWrite a.output_pdf_report td] else []))

/-!  Lemmas about the insertion sort used to model Python `sorted` and
the spec-modelled variant ranking. -/

theorem insertLe_perm {α : Type} (le : α → α → Bool) (x : α) (l : List α) :
    List.Perm (insertLe le x l) (x :: l) := by
  induction l with
  | nil => exact List.Perm.refl _
  | cons y l ih =>
    simp only [insertLe]
    split
    · exact List.Perm.refl _
    · exact (List.Perm.cons y ih).trans (List.Perm.swap x y l)

theorem sortLe_perm {α : Type} (le : α → α → Bool) (l : List α) :
    List.Perm (sortLe le l) l := by
  induction l with
  | nil => exact List.Perm.refl _
  | cons x l ih =>
    exact (insertLe_perm le x (sortLe le l)).trans (List.Perm.cons x ih)

theorem insertLe_pairwise {α : Type} (le : α → α → Bool)
    (htot : ∀ a b, le a b = true ∨ le b a = true)
    (htrans : ∀ a b c, le a b = true → le b c = true → le a c = true)
    (x : α) (l : List α) (hl : l.Pairwise (fun a b => le a b = true)) :
    (insertLe le x l).Pairwise (fun a b => le a b = true) := by
  induction l with
  | nil => simp [insertLe]
  | cons y l ih =>
    rcases List.pairwise_cons.mp hl with ⟨hy, hl'⟩
    simp only [insertLe]
    split
    case isTrue hxy =>
      refine List.pairwise_cons.mpr ⟨?_, hl⟩
      intro z hz
      rcases List.mem_cons.mp hz with rfl | h
      · exact hxy
      · exact htrans x y z hxy (hy z h)
    case isFalse hxy =>
      refine List.pairwise_cons.mpr ⟨?_, ih hl'⟩
      intro z hz
      rcases List.mem_cons.mp ((insertLe_perm le x l).mem_iff.mp hz) with rfl | h
      · rcases htot z y with h' | h'
        · exact absurd h' hxy
        · exact h'
      · exact hy z h

theorem sortLe_pairwise {α : Type} (le : α → α → Bool)
    (htot : ∀ a b, le a b = true ∨ le b a = true)
    (htrans : ∀ a b c, le a b = true → le b c = true → le a c = true)
    (l : List α) :
    (sortLe le l).Pairwise (fun a b => le a b = true) := by
  induction l with
  | nil => simp [sortLe]
  | cons x l ih => exact insertLe_pairwise le htot htrans x (sortLe le l) ih

theorem strLeListB_total : ∀ xs ys, strLeListB xs ys = true ∨ strLeListB ys xs = true := by
  intro xs
  induction xs with
  | nil => intro ys; left; rfl
  | cons c cs ih =>
    intro ys
    cases ys with
    | nil => right; rfl
    | cons d ds =>
      simp only [strLeListB]
      rcases Nat.lt_trichotomy c.toNat d.toNat with h | h | h
      · left; simp [h]
      · have h1 : ¬ c.toNat < d.toNat := by omega
        have h2 : ¬ d.toNat < c.toNat := by omega
        rcases ih ds with h' | h'
        · left; simp [h1, h2, h']
        · right; simp [h1, h2, h']
      · right; simp [h, Nat.lt_asymm h]

theorem strLeListB_trans :
    ∀ xs ys zs, strLeListB xs ys = true → strLeListB ys zs = true →
      strLeListB xs zs = true := by
  intro xs
  induction xs with
  | nil => intro ys zs _ _; rfl
  | cons x xs ih =>
    intro ys zs h1 h2
    cases ys with
    | nil => simp [strLeListB] at h1
    | cons y ys =>
      cases zs with
      | nil => simp [strLeListB] at h2
      | cons z zs =>
        simp only [strLeListB] at h1 h2 ⊢
        by_cases hxy : x.toNat < y.toNat
        · by_cases hyz : y.toNat < z.toNat
          · rw [if_pos (by omega : x.toNat < z.toNat)]
          · by_cases hzy : z.toNat < y.toNat
            · rw [if_neg hyz, if_pos hzy] at h2
              exact absurd h2 (by simp)
            · rw [if_pos (by omega : x.toNat < z.toNat)]
        · by_cases hyx : y.toNat < x.toNat
          · rw [if_neg hxy, if_pos hyx] at h1
            exact absurd h1 (by simp)
          · by_cases hyz : y.toNat < z.toNat
            · rw [if_pos (by omega : x.toNat < z.toNat)]
            · by_cases hzy : z.toNat < y.toNat
              · rw [if_neg hyz, if_pos hzy] at h2
                exact absurd h2 (by simp)
              · rw [if_neg (by omega : ¬ x.toNat < z.toNat),
                    if_neg (by omega : ¬ z.toNat < x.toNat)]
                rw [if_neg hxy, if_neg hyx] at h1
                rw [if_neg hyz, if_neg hzy] at h2
                exact ih ys zs h1 h2

theorem strLeB_total (s t : String) : strLeB s t = true ∨ strLeB t s = true :=
  strLeListB_total s.data t.data

theorem strLeB_trans (s t u : String) :
    strLeB s t = true → strLeB t u = true → strLeB s u = true :=
  strLeListB_trans s.data t.data u.data

theorem keyLE_total (p q : String × PyValue) : keyLE p q = true ∨ keyLE q p = true :=
  strLeB_total p.1 q.1

theorem keyLE_trans (p q r : String × PyValue) :
    keyLE p q = true → keyLE q r = true → keyLE p r = true :=
  strLeB_trans p.1 q.1 r.1

theorem variantLE_total (v w : RankedVariant) :
    variantLE v w = true ∨ variantLE w v = true := by
  unfold variantLE
  rcases lt_trichotomy (bestWindowScore v) (bestWindowScore w) with h | h | h
  · right; simp [h]
  · rcases Nat.le_total v.variant.locus w.variant.locus with h' | h'
    · left; simp [h, h']
    · right; simp [h, h']
  · left; simp [h]

theorem variantLE_trans (u v w : RankedVariant)
    (h1 : variantLE u v = true) (h2 : variantLE v w = true) :
    variantLE u w = true := by
  unfold variantLE at h1 h2 ⊢
  by_cases a1 : bestWindowScore v < bestWindowScore u
  · by_cases a3 : bestWindowScore w < bestWindowScore v
    · rw [if_pos (lt_trans a3 a1)]
    · by_cases a4 : bestWindowScore v < bestWindowScore w
      · rw [if_neg a3, if_pos a4] at h2
        exact absurd h2 (by simp)
      · rw [if_pos (lt_of_le_of_lt (not_lt.mp a4) a1)]
  · by_cases a2 : bestWindowScore u < bestWindowScore v
    · rw [if_neg a1, if_pos a2] at h1
      exact absurd h1 (by simp)
    · by_cases a3 : bestWindowScore w < bestWindowScore v
      · rw [if_pos (lt_of_lt_of_le a3 (not_lt.mp a2))]
      · by_cases a4 : bestWindowScore v < bestWindowScore w
        · rw [if_neg a3, if_pos a4] at h2
          exact absurd h2 (by simp)
        · have euv : bestWindowScore u = bestWindowScore v :=
            le_antisymm (not_lt.mp a1) (not_lt.mp a2)
          have evw : bestWindowScore v = bestWindowScore w :=
            le_antisymm (not_lt.mp a3) (not_lt.mp a4)
          rw [if_neg a1, if_neg a2] at h1
          rw [if_neg a3, if_neg a4] at h2
          rw [if_neg (by rw [euv, evw]; exact lt_irrefl _ : ¬ bestWindowScore w < bestWindowScore u),
              if_neg (by rw [euv, evw]; exact lt_irrefl _ : ¬ bestWindowScore u < bestWindowScore w)]
          simp only [decide_eq_true_eq] at h1 h2 ⊢
          omega

/-- A variant that precedes another in the ranking order has a
best-window score at least as large. -/
theorem variantLE_score (v w : RankedVariant) (h : variantLE v w = true) :
    bestWindowScore w ≤ bestWindowScore v := by
  unfold variantLE at h
  by_cases h1 : bestWindowScore w < bestWindowScore v
  · exact le_of_lt h1
  · by_cases h2 : bestWindowScore v < bestWindowScore w
    · rw [if_neg h1, if_pos h2] at h
      exact absurd h (by simp)
    · exact not_lt.mp h2

/-!  Round-trip lemmas for the spec-modelled serialization. -/

theorem decodeListP_encodeListP {α : Type} (f : α → PVal) (g : PVal → Option α)
    (h : ∀ x, g (f x) = some x) (l : List α) :
    decodeListP g (encodeListP f l) = some l := by
  induction l with
  | nil => rfl
  | cons x xs ih => simp [encodeListP, decodeListP, h, ih]

theorem decodePyValue_encode (v : PyValue) :
    decodePyValue (encodePyValue v) = some v := by
  cases v <;> rfl

theorem decodeArgPair_encode (p : String × PyValue) :
    decodeArgPair (encodeArgPair p) = some p := by
  cases p with
  | mk k v => simp [encodeArgPair, decodeArgPair, decodePyValue_encode]

theorem decodeEpitope_encode (e : String × Rat) :
    decodeEpitope (encodeEpitope e) = some e := by
  cases e with
  | mk s q => rfl

theorem decodeScoredWindow_encode (w : ScoredWindow) :
    decodeScoredWindow (encodeScoredWindow w) = some w := by
  simp [encodeScoredWindow, decodeScoredWindow,
    decodeListP_encodeListP encodeEpitope decodeEpitope decodeEpitope_encode,
    Int.toNat_ofNat]

theorem decodeVariant_encode (v : Variant) :
    decodeVariant (encodeVariant v) = some v := by
  simp [encodeVariant, decodeVariant, Int.toNat_ofNat]

theorem decodeRankedVariant_encode (rv : RankedVariant) :
    decodeRankedVariant (encodeRankedVariant rv) = some rv := by
  simp [encodeRankedVariant, decodeRankedVariant, decodeVariant_encode,
    decodeListP_encodeListP encodeScoredWindow decodeScoredWindow decodeScoredWindow_encode]

theorem decodeStr_encode (s : String) : decodeStr (PVal.strV s) = some s := rfl

/-- Serialize-then-deserialize is the identity on template data. -/
theorem decodeTemplateData_encode (td : TemplateData) :
    decodeTemplateData (encodeTemplateData td) = some td := by
  simp [encodeTemplateData, decodeTemplateData,
    decodeListP_encodeListP encodeRankedVariant decodeRankedVariant decodeRankedVariant_encode,
    decodeListP_encodeListP PVal.strV decodeStr decodeStr_encode,
    decodeListP_encodeListP encodeVariant decodeVariant decodeVariant_encode,
    decodeListP_encodeListP encodeArgPair decodeArgPair decodeArgPair_encode]

/-!  Lemmas about the pickle-branch args replacement and the
interesting-args list. -/

theorem replaceFirstInputPickle_isSome
    (l : List (String × PyValue)) (p : String)
    (h : ∃ v, ("input_pickle_file", v) ∈ l) :
    ∃ l', replaceFirstInputPickle l p = some l' := by
  induction l with
  | nil => rcases h with ⟨v, hv⟩; exact absurd hv (List.not_mem_nil _)
  | cons kv rest ih =>
    cases kv with
    | mk k v' =>
      by_cases hk : k = "input_pickle_file"
      · subst hk
        exact ⟨("input_pickle_file", PyValue.str p) :: rest, by simp [replaceFirstInputPickle]⟩
      · rcases h with ⟨v, hv⟩
        rcases List.mem_cons.mp hv with heq | hmem
        · exact absurd (congrArg Prod.fst heq.symm) hk
        · rcases ih ⟨v, hmem⟩ with ⟨rest', hrest⟩
          exact ⟨(k, v') :: rest', by simp [replaceFirstInputPickle, hk, hrest]⟩

theorem mem_interestingArgs (a : Args) :
    ("input_pickle_file", PyValue.str a.input_pickle_file) ∈ interestingArgs a := by
  unfold interestingArgs
  refine List.mem_filter.mpr ⟨?_, rfl⟩
  refine (sortLe_perm keyLE (varsOf a)).mem_iff.mpr ?_
  simp [varsOf]

/-!  Generic list facts. -/

theorem pairwise_take_drop {α : Type} {R : α → α → Prop} {l : List α}
    (h : l.Pairwise R) (k : Nat) :
    ∀ x ∈ l.take k, ∀ y ∈ l.drop k, R x y := by
  have h' : (l.take k ++ l.drop k).Pairwise R := by
    rw [List.take_append_drop]; exact h
  exact (List.pairwise_append.mp h').2.2

theorem pySliceTo_nonneg {α : Type} (l : List α) (n : Int) (h : 0 ≤ n) :
    pySliceTo l n = l.take n.toNat := by
  unfold pySliceTo
  rw [if_neg (not_lt.mpr h)]

/-- The non-pickle branch of `load_template_data` in closed form. -/
theorem load_nonpickle (env : Env) (a : Args) (hnp : a.input_pickle_file = "") :
    load_template_data env a = .ok (templateDataFor env a, effectsFor env a) := by
  unfold load_template_data
  rw [hnp]
  simp

/-!  Concrete fixtures used by the witnesses and counterexamples. -/

/-- A scored window with aggregate score 9. -/
def w1 : ScoredWindow :=
  { sequence := "AAAA", score := 9, epitopes := [("AAA", 9)], readSupport := 3 }

/-- A scored window with aggregate score 4. -/
def w2 : ScoredWindow :=
  { sequence := "CCCC", score := 4, epitopes := [("CCC", 4)], readSupport := 2 }

/-- A variant at locus 100. -/
def var1 : Variant := { locus := 100, ref := "A", alt := "T" }

/-- A variant at locus 200. -/
def var2 : Variant := { locus := 200, ref := "C", alt := "G" }

/-- The locus-100 variant with its single window (score 9). -/
def rv1 : RankedVariant := { variant := var1, windows := [w1] }

/-- The locus-200 variant with its single window (score 4). -/
def rv2 : RankedVariant := { variant := var2, windows := [w2] }

/-- A plain argument namespace: no pickle file, no outputs, default
vaccine-peptide options. -/
def sampleArgs : Args :=
  { bam := "rna.bam", input_pickle_file := "", max_mutations_in_report := 10,
    max_vaccine_peptides_per_mutation := 1, min_epitope_score := 0,
    min_reads_supporting_variant_sequence := 2,
    output_ascii_report := "", output_csv := "", output_final_review := "",
    output_html_report := "", output_patient_id := "", output_pdf_report := "",
    output_pickle_file := "", output_reviewed_by := "",
    padding_around_mutation := 0, vaccine_peptide_length := 25, extraArgs := [] }

/-- An environment whose per-variant pipeline yields the two sample
variants in unsorted order (scores 4 then 9). -/
def sampleEnv : Env :=
  { perVariant := fun _ => [rv2, rv1], variantColl := [var1, var2],
    mhcAlleles := ["HLA-A*02:01"], store := fun _ => none }

/-- The sorted non-output argument pairs of `sampleArgs`. -/
def sampleInterestingArgs : List (String × PyValue) :=
  [("bam", .str "rna.bam"), ("input_pickle_file", .str ""),
   ("max_mutations_in_report", .int 10),
   ("max_vaccine_peptides_per_mutation", .int 1),
   ("min_epitope_score", .float 0),
   ("min_reads_supporting_variant_sequence", .int 2),
   ("padding_around_mutation", .int 0),
   ("vaccine_peptide_length", .int 25)]

/-- The template data of the run on `sampleEnv` and `sampleArgs`. -/
def sampleTd : TemplateData :=
  { rankedList := [rv1, rv2],
    mhcAlleles := ["HLA-A*02:01"],
    variantColl := [var1, var2],
    bamPath := "rna.bam",
    args := sampleInterestingArgs,
    patient_id := "UNKNOWN",
    final_review := "",
    reviewers := [""] }

/-- An environment like `sampleEnv` but with an empty variant
collection and allele set. -/
def cexEnvC1 : Env :=
  { perVariant := fun _ => [rv2, rv1], variantColl := [],
    mhcAlleles := [], store := fun _ => none }

/-- Arguments with a negative `--max-mutations-in-report`. -/
def cexArgsC1 : Args := { sampleArgs with max_mutations_in_report := -1 }

/-!  C1.  The claim says every run (not restored from a pickle) uses a
ranked list truncated to at most `max_mutations_in_report` variants.
`argparse` accepts any int for `--max-mutations-in-report`, and for a
negative value the Python slice `ranked_list[:n]` keeps all but the
last `|n|` entries, whose count is not bounded by `n`; the claim holds
for every nonnegative value. -/

/-- C1 (counterexample): with `--max-mutations-in-report -1` and two
ranked variants, the report keeps 1 variant, and 1 is not at most -1 —
the claimed bound fails as stated. -/
theorem truncation_bound_fails_for_negative_limit :
    cexArgsC1.max_mutations_in_report = -1
    ∧ (load_template_data cexEnvC1 cexArgsC1).map (fun r => (r.1.rankedList.length : Int)) =
        .ok 1
    ∧ ¬ ((1 : Int) ≤ cexArgsC1.max_mutations_in_report) :=
  ⟨rfl, rfl, by decide⟩

/-- C1 (amended): for every run without an input pickle file and with
a nonnegative `max_mutations_in_report`, the ranked list in the
template data is the first `max_mutations_in_report` entries of the
full ranked list, its length is at most `max_mutations_in_report`, and
any CSV written carries rows derived from that same truncated list. -/
theorem report_truncated_to_max_mutations
    (env : Env) (a : Args) (td : TemplateData) (effs : List Effect)
    (hnp : a.input_pickle_file = "")
    (hrun : load_template_data env a = .ok (td, effs))
    (hmax : 0 ≤ a.max_mutations_in_report) :
    td.rankedList = (rankedListFor env a).take a.max_mutations_in_report.toNat
    ∧ (td.rankedList.length : Int) ≤ a.max_mutations_in_report
    ∧ ∀ p rows, Effect.csvWrite p rows ∈ effs →
        rows = dataframe_from_ranked_list td.rankedList := by
  rw [load_nonpickle env a hnp] at hrun
  simp only [Except.ok.injEq, Prod.mk.injEq] at hrun
  obtain ⟨htd, heffs⟩ := hrun
  subst htd
  subst heffs
  have hlist : (templateDataFor env a).rankedList =
      (rankedListFor env a).take a.max_mutations_in_report.toNat := by
    show rankedForReport env a = _
    unfold rankedForReport
    exact pySliceTo_nonneg _ _ hmax
  refine ⟨hlist, ?_, ?_⟩
  · rw [hlist]
    rw [List.length_take]
    have := Int.toNat_of_nonneg hmax
    omega
  · intro p rows hmem
    unfold effectsFor at hmem
    rcases List.mem_append.mp hmem with hcsv | hpkl
    · by_cases hc : a.output_csv ≠ ""
      · rw [if_pos hc] at hcsv
        rcases List.mem_singleton.mp hcsv with h
        injection h with hpath hrows
      · rw [if_neg hc] at hcsv
        exact absurd hcsv (List.not_mem_nil _)
    · by_cases hk : a.output_pickle_file ≠ ""
      · rw [if_pos hk] at hpkl
        rcases List.mem_singleton.mp hpkl with h
        cases h
      · rw [if_neg hk] at hpkl
        exact absurd hpkl (List.not_mem_nil _)

/-- C1 (witness): the amended theorem applied to the sample run. -/
theorem report_truncated_to_max_mutations_witness :
    sampleArgs.input_pickle_file = "" ∧ (0 : Int) ≤ sampleArgs.max_mutations_in_report
    ∧ sampleTd.rankedList =
        (rankedListFor sampleEnv sampleArgs).take sampleArgs.max_mutations_in_report.toNat :=
  ⟨rfl, by decide,
    (report_truncated_to_max_mutations sampleEnv sampleArgs sampleTd [] rfl rfl (by decide)).1⟩

/-- C2: in every run without an input pickle file, the ranked list in
the template data is sorted with non-increasing best-window scores,
it is a prefix (`take`) of the full ranked list, and every kept
variant scores at least as high as every dropped one. -/
theorem ranked_result_scores_antitone
    (env : Env) (a : Args) (td : TemplateData) (effs : List Effect)
    (hnp : a.input_pickle_file = "")
    (hrun : load_template_data env a = .ok (td, effs)) :
    td.rankedList.Pairwise (fun v w => bestWindowScore w ≤ bestWindowScore v)
    ∧ ∃ k, td.rankedList = (rankedListFor env a).take k
        ∧ ∀ v ∈ td.rankedList, ∀ w ∈ (rankedListFor env a).drop k,
            bestWindowScore w ≤ bestWindowScore v := by
  rw [load_nonpickle env a hnp] at hrun
  simp only [Except.ok.injEq, Prod.mk.injEq] at hrun
  obtain ⟨htd, heffs⟩ := hrun
  subst htd
  have hfull : (rankedListFor env a).Pairwise
      (fun v w => bestWindowScore w ≤ bestWindowScore v) := by
    have h := sortLe_pairwise variantLE variantLE_total variantLE_trans
      ((env.perVariant (pipelineCfgOf a)).filter (fun v => !v.windows.isEmpty))
    exact h.imp (fun hvw => variantLE_score _ _ hvw)
  have hlist : (templateDataFor env a).rankedList =
      (rankedListFor env a).take
        (if a.max_mutations_in_report < 0 then
          (rankedListFor env a).length - (-a.max_mutations_in_report).toNat
        else a.max_mutations_in_report.toNat) := rfl
  refine ⟨?_, ?_⟩
  · rw [hlist]
    exact hfull.sublist (List.take_sublist _ _)
  · refine ⟨_, hlist, ?_⟩
    intro v hv w hw
    rw [hlist] at hv
    exact pairwise_take_drop hfull _ v hv w hw

/-- C2 (witness): the sample run's template data, whose pipeline
produced the variants out of order (scores 4 then 9), comes back
sorted 9 then 4. -/
theorem ranked_result_scores_antitone_witness :
    sampleTd.rankedList.Pairwise (fun v w => bestWindowScore w ≤ bestWindowScore v) :=
  (ranked_result_scores_antitone sampleEnv sampleArgs sampleTd [] rfl rfl).1

/-- C3: the embedded pipeline is a pure function of the parsed
arguments and the modelled externals (variants, reads-derived
per-variant results, predictor responses, file store): two runs on
equal inputs return equal template data and effects, both for
`load_template_data` and for the whole `main`. -/
theorem pipeline_deterministic (env₁ env₂ : Env) (a₁ a₂ : Args)
    (henv : env₁ = env₂) (ha : a₁ = a₂) :
    vaxrank_main env₁ a₁ = vaxrank_main env₂ a₂
    ∧ load_template_data env₁ a₁ = load_template_data env₂ a₂ := by
  subst henv
  subst ha
  exact ⟨rfl, rfl⟩

/-- C3 (witness): the determinism theorem applied to the sample run. -/
theorem pipeline_deterministic_witness :
    vaxrank_main sampleEnv sampleArgs = vaxrank_main sampleEnv sampleArgs
    ∧ load_template_data sampleEnv sampleArgs = load_template_data sampleEnv sampleArgs :=
  pipeline_deterministic sampleEnv sampleEnv sampleArgs sampleArgs rfl rfl

/-- The pickle branch of `load_template_data` in closed form. -/
theorem load_pickle (env : Env) (a : Args) (pv : PVal) (td : TemplateData)
    (newArgs : List (String × PyValue))
    (hne : a.input_pickle_file ≠ "")
    (hstore : env.store a.input_pickle_file = some pv)
    (hdec : decodeTemplateData pv = some td)
    (hrep : replaceFirstInputPickle td.args a.input_pickle_file = some newArgs) :
    load_template_data env a = .ok ({ td with args := newArgs }, []) := by
  unfold load_template_data
  rw [if_pos hne]
  simp only [hstore, hdec, hrep]

/-!  Fixtures for the pickle save/load claims. -/

/-- A save-run environment with an empty pipeline and no stored
files. -/
def cexSaveEnvC4 : Env :=
  { perVariant := fun _ => [], variantColl := [], mhcAlleles := [],
    store := fun _ => none }

/-- Arguments requesting a pickle dump to `td.pkl`. -/
def cexSaveArgsC4 : Args := { sampleArgs with output_pickle_file := "td.pkl" }

/-- The template data the save run produces and pickles. -/
def savedTdC4 : TemplateData :=
  { rankedList := [], mhcAlleles := [], variantColl := [], bamPath := "rna.bam",
    args := sampleInterestingArgs, patient_id := "UNKNOWN", final_review := "",
    reviewers := [""] }

/-- A load-run environment whose store holds the pickled template
data under `td.pkl`. -/
def cexLoadEnvC4 : Env :=
  { perVariant := fun _ => [], variantColl := [], mhcAlleles := [],
    store := fun s => if s = "td.pkl" then some (encodeTemplateData savedTdC4) else none }

/-- Arguments restoring from `td.pkl`. -/
def cexLoadArgsC4 : Args := { sampleArgs with input_pickle_file := "td.pkl" }

/-- `sampleInterestingArgs` with the `input_pickle_file` entry's value
replaced by `td.pkl`, as the pickle branch does on reload. -/
def loadedArgsC4 : List (String × PyValue) :=
  [("bam", .str "rna.bam"), ("input_pickle_file", .str "td.pkl"),
   ("max_mutations_in_report", .int 10),
   ("max_vaccine_peptides_per_mutation", .int 1),
   ("min_epitope_score", .float 0),
   ("min_reads_supporting_variant_sequence", .int 2),
   ("padding_around_mutation", .int 0),
   ("vaccine_peptide_length", .int 25)]

/-- The template data returned by the reload run. -/
def loadedTdC4 : TemplateData := { savedTdC4 with args := loadedArgsC4 }

/-!  C4.  The claim says a reload returns template data equal to what
was saved.  The code replaces the `input_pickle_file` entry of the
stored args list with the (necessarily non-empty) path given on
reload, while the saved data recorded the empty string there, so the
returned data always differs from the saved data in exactly that
entry. -/

/-- C4 (counterexample): a concrete save run pickles `savedTdC4`; the
reload run on that file returns `loadedTdC4`, which differs from
`savedTdC4` (its args record `input_pickle_file = "td.pkl"` instead of
the saved empty string). -/
theorem pickle_roundtrip_not_identity :
    load_template_data cexSaveEnvC4 cexSaveArgsC4 =
      .ok (savedTdC4, [Effect.pickleWrite "td.pkl" (encodeTemplateData savedTdC4)])
    ∧ load_template_data cexLoadEnvC4 cexLoadArgsC4 = .ok (loadedTdC4, [])
    ∧ loadedTdC4 ≠ savedTdC4 :=
  ⟨rfl, rfl, by decide⟩

/-- C4 (amended): serialize-then-deserialize is the identity on the
saved template data, and the reload run returns exactly the saved data
with only the `input_pickle_file` entry of its args list replaced by
the given path. -/
theorem pickle_roundtrip_modulo_input_entry
    (env env₂ : Env) (a₁ a₂ : Args) (td : TemplateData) (effs : List Effect)
    (h1 : a₁.input_pickle_file = "")
    (hsave : load_template_data env a₁ = .ok (td, effs))
    (hp : a₂.input_pickle_file ≠ "")
    (hstore : env₂.store a₂.input_pickle_file = some (encodeTemplateData td)) :
    decodeTemplateData (encodeTemplateData td) = some td
    ∧ ∃ newArgs, replaceFirstInputPickle td.args a₂.input_pickle_file = some newArgs
        ∧ load_template_data env₂ a₂ = .ok ({ td with args := newArgs }, []) := by
  have htd : td = templateDataFor env a₁ := by
    rw [load_nonpickle env a₁ h1] at hsave
    simp only [Except.ok.injEq, Prod.mk.injEq] at hsave
    exact hsave.1.symm
  have hmem : ∃ v, ("input_pickle_file", v) ∈ td.args := by
    have hargs : (templateDataFor env a₁).args = interestingArgs a₁ := rfl
    rw [htd, hargs]
    exact ⟨PyValue.str a₁.input_pickle_file, mem_interestingArgs a₁⟩
  obtain ⟨newArgs, hrep⟩ := replaceFirstInputPickle_isSome td.args a₂.input_pickle_file hmem
  exact ⟨decodeTemplateData_encode td, newArgs, hrep,
    load_pickle env₂ a₂ (encodeTemplateData td) td newArgs hp hstore
      (decodeTemplateData_encode td) hrep⟩

/-- C4 (witness): the amended theorem applied to the concrete
save/reload pair. -/
theorem pickle_roundtrip_modulo_input_entry_witness :
    decodeTemplateData (encodeTemplateData savedTdC4) = some savedTdC4
    ∧ ∃ newArgs,
        replaceFirstInputPickle savedTdC4.args cexLoadArgsC4.input_pickle_file = some newArgs
        ∧ load_template_data cexLoadEnvC4 cexLoadArgsC4 =
            .ok ({ savedTdC4 with args := newArgs }, []) :=
  pickle_roundtrip_modulo_input_entry cexSaveEnvC4 cexLoadEnvC4 cexSaveArgsC4 cexLoadArgsC4
    savedTdC4 [Effect.pickleWrite "td.pkl" (encodeTemplateData savedTdC4)]
    rfl rfl (by decide) rfl

/-- C5: with a non-empty `--input-pickle-file`, `load_template_data`
returns the decoded stored template data with only the
`input_pickle_file` entry of its args list replaced by the given path
— all other fields unchanged, no effects produced — and the result
depends only on the input pickle path and the file's content: any
other arguments and any other environment give the same result. -/
theorem pickle_load_frame (env : Env) (a : Args) (td : TemplateData) (pv : PVal)
    (newArgs : List (String × PyValue))
    (hne : a.input_pickle_file ≠ "")
    (hstore : env.store a.input_pickle_file = some pv)
    (hdec : decodeTemplateData pv = some td)
    (hrep : replaceFirstInputPickle td.args a.input_pickle_file = some newArgs) :
    load_template_data env a = .ok ({ td with args := newArgs }, [])
    ∧ ∀ (env' : Env) (a' : Args), a'.input_pickle_file = a.input_pickle_file →
        env'.store a.input_pickle_file = env.store a.input_pickle_file →
        load_template_data env' a' = load_template_data env a := by
  refine ⟨load_pickle env a pv td newArgs hne hstore hdec hrep, ?_⟩
  intro env' a' hfile hst
  have hne' : a'.input_pickle_file ≠ "" := by rw [hfile]; exact hne
  unfold load_template_data
  rw [if_pos hne', if_pos hne, hfile, hst]

/-- C5 (witness): the frame theorem applied to the concrete reload
run. -/
theorem pickle_load_frame_witness :
    load_template_data cexLoadEnvC4 cexLoadArgsC4 =
      .ok ({ savedTdC4 with args := loadedArgsC4 }, []) :=
  (pickle_load_frame cexLoadEnvC4 cexLoadArgsC4 savedTdC4 (encodeTemplateData savedTdC4)
    loadedArgsC4 (by decide) rfl (by decide) (by decide)).1

/-- C6: when none of `--output-csv`, `--output-ascii-report`,
`--output-html-report`, `--output-pdf-report` is given, `main` fails
with the ValueError up front, for every environment — no variant
loading, scoring or ranking is performed, as the result does not
depend on the environment at all. -/
theorem main_requires_output_option (env : Env) (a : Args)
    (h1 : a.output_csv = "") (h2 : a.output_ascii_report = "")
    (h3 : a.output_html_report = "") (h4 : a.output_pdf_report = "") :
    vaxrank_main env a =
      .error "ValueError: must specify at least one of the output options" := by
  unfold vaxrank_main
  rw [if_pos ⟨h1, h2, h3, h4⟩]

/-- C6 (witness): the up-front error on the sample arguments, which
request no outputs. -/
theorem main_requires_output_option_witness :
    vaxrank_main sampleEnv sampleArgs =
      .error "ValueError: must specify at least one of the output options" :=
  main_requires_output_option sampleEnv sampleArgs rfl rfl rfl rfl

/-!  C7.  The claim says the CSV is produced if and only if
`--output-csv` is non-empty.  That holds for runs without an input
pickle file; a pickle-restore run returns before the CSV code, so it
writes no CSV even when `--output-csv` is non-empty. -/

/-- Arguments restoring from `td.pkl` while also requesting a CSV. -/
def cexArgsC7 : Args :=
  { sampleArgs with input_pickle_file := "td.pkl", output_csv := "out.csv" }

/-- C7 (counterexample): a pickle-restore run with `--output-csv
out.csv` produces no effects at all, in particular no CSV write, so
the claimed equivalence fails as stated. -/
theorem csv_skipped_in_pickle_run :
    cexArgsC7.output_csv ≠ ""
    ∧ (load_template_data cexLoadEnvC4 cexArgsC7).map (fun r => r.2) =
        .ok ([] : List Effect) :=
  ⟨by decide, rfl⟩

/-- C7 (amended): in runs without an input pickle file, a CSV write is
produced if and only if `--output-csv` is non-empty, it goes to that
path, and its rows are the flat table of the truncated ranked list. -/
theorem csv_written_iff_requested_nonpickle
    (env : Env) (a : Args) (td : TemplateData) (effs : List Effect)
    (hnp : a.input_pickle_file = "")
    (hrun : load_template_data env a = .ok (td, effs)) :
    ((∃ p rows, Effect.csvWrite p rows ∈ effs) ↔ a.output_csv ≠ "")
    ∧ ∀ p rows, Effect.csvWrite p rows ∈ effs →
        p = a.output_csv ∧ rows = dataframe_from_ranked_list (rankedForReport env a) := by
  rw [load_nonpickle env a hnp] at hrun
  simp only [Except.ok.injEq, Prod.mk.injEq] at hrun
  obtain ⟨htd, heffs⟩ := hrun
  subst heffs
  by_cases hc : a.output_csv = ""
  · have hnone : ∀ p rows, Effect.csvWrite p rows ∉ effectsFor env a := by
      intro p rows hmem
      unfold effectsFor at hmem
      rw [if_neg (fun h => h hc), List.nil_append] at hmem
      by_cases hk : a.output_pickle_file ≠ ""
      · rw [if_pos hk] at hmem
        exact Effect.noConfusion (List.mem_singleton.mp hmem)
      · rw [if_neg hk] at hmem
        exact absurd hmem (List.not_mem_nil _)
    refine ⟨⟨?_, ?_⟩, ?_⟩
    · rintro ⟨p, rows, hmem⟩
      exact absurd hmem (hnone p rows)
    · intro hne
      exact absurd hc hne
    · intro p rows hmem
      exact absurd hmem (hnone p rows)
  · refine ⟨⟨fun _ => hc, fun _ => ?_⟩, ?_⟩
    · refine ⟨a.output_csv, dataframe_from_ranked_list (rankedForReport env a), ?_⟩
      unfold effectsFor
      rw [if_pos hc]
      exact List.mem_append_left _ (List.mem_singleton.mpr rfl)
    · intro p rows hmem
      unfold effectsFor at hmem
      rw [if_pos hc] at hmem
      rcases List.mem_append.mp hmem with h | h
      · have heq := List.mem_singleton.mp h
        injection heq with hp1 hp2
        exact ⟨hp1, hp2⟩
      · by_cases hk : a.output_pickle_file ≠ ""
        · rw [if_pos hk] at h
          exact Effect.noConfusion (List.mem_singleton.mp h)
        · rw [if_neg hk] at h
          exact absurd h (List.not_mem_nil _)

/-- Arguments like the sample's but requesting a CSV to `out.csv`. -/
def sampleArgsCsv : Args := { sampleArgs with output_csv := "out.csv" }

/-- The rows of the CSV written by the sample run: one row per
selected window of the two ranked variants. -/
def sampleCsvRows : List CsvRow :=
  [{ variant := var1, peptideSequence := "AAAA", score := 9, topEpitopes := [("AAA", 9)] },
   { variant := var2, peptideSequence := "CCCC", score := 4, topEpitopes := [("CCC", 4)] }]

/-- C7 (witness): the amended theorem applied to a sample run with
`--output-csv out.csv`, which wrote exactly that CSV. -/
theorem csv_written_iff_requested_nonpickle_witness :
    (∃ p rows, Effect.csvWrite p rows ∈ [Effect.csvWrite "out.csv" sampleCsvRows]) ↔
      sampleArgsCsv.output_csv ≠ "" :=
  (csv_written_iff_requested_nonpickle sampleEnv sampleArgsCsv sampleTd
    [Effect.csvWrite "out.csv" sampleCsvRows] rfl rfl).1

/-- C8: in every run without an input pickle file, an empty
`--output-patient-id` makes the template data's patient id the literal
string `UNKNOWN`, and the patient id is never the empty string. -/
theorem patient_id_defaults_to_unknown
    (env : Env) (a : Args) (td : TemplateData) (effs : List Effect)
    (hnp : a.input_pickle_file = "")
    (hrun : load_template_data env a = .ok (td, effs)) :
    (a.output_patient_id = "" → td.patient_id = "UNKNOWN")
    ∧ td.patient_id ≠ "" := by
  rw [load_nonpickle env a hnp] at hrun
  simp only [Except.ok.injEq, Prod.mk.injEq] at hrun
  obtain ⟨htd, heffs⟩ := hrun
  subst htd
  have hproj : (templateDataFor env a).patient_id =
      (if a.output_patient_id = "" then "UNKNOWN" else a.output_patient_id) := rfl
  constructor
  · intro h
    rw [hproj, if_pos h]
  · rw [hproj]
    by_cases h : a.output_patient_id = ""
    · rw [if_pos h]
      decide
    · rw [if_neg h]
      exact h

/-- C8 (witness): the defaulting theorem applied to the sample run,
whose `--output-patient-id` is empty. -/
theorem patient_id_defaults_to_unknown_witness :
    sampleTd.patient_id = "UNKNOWN" ∧ sampleTd.patient_id ≠ "" :=
  (fun h => ⟨h.1 rfl, h.2⟩)
    (patient_id_defaults_to_unknown sampleEnv sampleArgs sampleTd [] rfl rfl)

/-- C9: in every run without an input pickle file, the `args` entry of
the template data holds exactly the `(name, value)` pairs of the
parsed arguments whose names do not start with `output` (as a
permutation of that filtered list), in ascending order by name; in
particular no entry's name starts with `output`, so no output path,
patient id or reviewer option is recorded. -/
theorem interesting_args_sorted_non_output
    (env : Env) (a : Args) (td : TemplateData) (effs : List Effect)
    (hnp : a.input_pickle_file = "")
    (hrun : load_template_data env a = .ok (td, effs)) :
    List.Perm td.args ((varsOf a).filter (fun p => !(pyStartswith p.1 "output")))
    ∧ td.args.Pairwise (fun p q => strLeB p.1 q.1 = true)
    ∧ ∀ p ∈ td.args, pyStartswith p.1 "output" = false := by
  rw [load_nonpickle env a hnp] at hrun
  simp only [Except.ok.injEq, Prod.mk.injEq] at hrun
  obtain ⟨htd, heffs⟩ := hrun
  subst htd
  have hargs : (templateDataFor env a).args =
      (sortLe keyLE (varsOf a)).filter (fun p => !(pyStartswith p.1 "output")) := rfl
  refine ⟨?_, ?_, ?_⟩
  · rw [hargs]
    exact (sortLe_perm keyLE (varsOf a)).filter _
  · rw [hargs]
    exact ((sortLe_pairwise keyLE keyLE_total keyLE_trans (varsOf a)).sublist
      (List.filter_sublist _))
  · intro p hp
    rw [hargs] at hp
    have := (List.mem_filter.mp hp).2
    simpa using this

/-- C9 (witness): the args invariants on the sample run. -/
theorem interesting_args_sorted_non_output_witness :
    sampleTd.args.Pairwise (fun p q => strLeB p.1 q.1 = true)
    ∧ ∀ p ∈ sampleTd.args, pyStartswith p.1 "output" = false :=
  (fun h => ⟨h.2.1, h.2.2⟩)
    (interesting_args_sorted_non_output sampleEnv sampleArgs sampleTd [] rfl rfl)

/-- C10: in every run without an input pickle file, the reviewers list
is `--output-reviewed-by` split on commas; when that option is the
default empty string the list is `[""]`, a one-element list, never the
empty list. -/
theorem reviewers_split_on_comma
    (env : Env) (a : Args) (td : TemplateData) (effs : List Effect)
    (hnp : a.input_pickle_file = "")
    (hrun : load_template_data env a = .ok (td, effs)) :
    td.reviewers = pySplitComma a.output_reviewed_by
    ∧ (a.output_reviewed_by = "" → td.reviewers = [""]) := by
  rw [load_nonpickle env a hnp] at hrun
  simp only [Except.ok.injEq, Prod.mk.injEq] at hrun
  obtain ⟨htd, heffs⟩ := hrun
  subst htd
  refine ⟨rfl, fun h => ?_⟩
  show pySplitComma a.output_reviewed_by = [""]
  rw [h]
  rfl

/-- C10 (witness): the reviewers of the sample run, whose
`--output-reviewed-by` is the default empty string, are `[""]`. -/
theorem reviewers_split_on_comma_witness :
    sampleTd.reviewers = pySplitComma sampleArgs.output_reviewed_by
    ∧ sampleTd.reviewers = [""] :=
  (fun h => ⟨h.1, h.2 rfl⟩)
    (reviewers_split_on_comma sampleEnv sampleArgs sampleTd [] rfl rfl)
